import Mathlib

/-!
Verification of the websocket relay server in `code/simluation/server.py`.

The server keeps a module-level set `active_websockets` of open websocket
connections.  `websocket_handler` registers a freshly prepared connection,
relays every inbound TEXT frame to every other registered connection whose
transport is not closed, prints on ERROR frames, and discards the connection
from the set in a `finally` block.  The aiohttp application additionally
routes `/ws` to the websocket handler, `/dashboard.html` to
`external_dashboard_handler` (which serves the fixed path
`EXTERNAL_DASHBOARD_PATH`), and everything else to a static route rooted at
the working directory; routes are matched in registration order.

The embedding below follows the Python source line by line.  Exceptions are
made explicit (a `send_str` that raises aborts the surrounding loop, exactly
as an uncaught Python exception would), and the `async for msg in ws`
iterator follows aiohttp's stream semantics: after an ERROR message the
connection is closed, the next `receive` yields CLOSED, and the iteration
stops, so no frame after an ERROR frame is ever handed to the loop body.
-/

namespace Server

/-- The subset of `aiohttp.web.WSMsgType` values the handler can observe from
`async for msg in ws`: TEXT frames, ERROR messages, and other passed-through
frame kinds (binary and similar), here collectively `BINARY`.  CLOSE-family
messages terminate the iterator inside aiohttp and are never yielded, so they
are modelled by the end of the inbound frame list. -/
inductive WSMsgType where
  | TEXT
  | ERROR
  | BINARY
  deriving DecidableEq, Repr

/-- One message yielded by the websocket iterator: its type and its `data`
payload (meaningful for TEXT frames). -/
structure WSMsg where
  type : WSMsgType
  data : String
  deriving DecidableEq, Repr

/-- A websocket connection as the relay loop sees it: its Python object
identity (`id`, distinct objects have distinct ids), the `closed` flag the
broadcast loop checks before writing, and whether `send_str` on it raises
(a transport that drops between the `closed` check and the write). -/
structure Client where
  id : Nat
  closed : Bool
  sendFails : Bool
  deriving DecidableEq, Repr

/-- The guard of the broadcast loop body:
`if client is not ws and not client.closed`. -/
def eligible (ws c : Client) : Bool :=
  c.id != ws.id && !c.closed

/-- One write performed by the broadcast loop: which client received
`client.send_str(msg.data)` and the exact string handed to `send_str`. -/
structure Delivery where
  recipient : Nat
  payload : String
  deriving DecidableEq, Repr

/-- Result of one fan-out (`for client in active_websockets: ...`):
the ids the loop called `send_str` on, in iteration order; the writes that
completed; and whether a `send_str` raised, aborting the loop (there is no
try/except around the write, so the exception propagates). -/
structure BCResult where
  attempted : List Nat
  delivered : List Delivery
  raised : Bool
  deriving DecidableEq, Repr

/-- The inner loop run for one TEXT frame:
```
for client in active_websockets:
    if client is not ws and not client.closed:
        await client.send_str(msg.data)
```
`reg` is the contents of `active_websockets` in iteration order. -/
def broadcastLoop (ws : Client) (payload : String) : List Client → BCResult
  | [] => ⟨[], [], false⟩
  | c :: rest =>
    if eligible ws c then
      if c.sendFails then
        ⟨[c.id], [], true⟩
      else
        let r := broadcastLoop ws payload rest
        ⟨c.id :: r.attempted, ⟨c.id, payload⟩ :: r.delivered, r.raised⟩
    else
      broadcastLoop ws payload rest

/-- How the `async for` loop of `websocket_handler` ends: the iterator is
exhausted (peer close / CLOSE message), an ERROR message was received (the
connection is closed, the iterator then stops), or an exception escaped the
loop body (an uncaught `send_str` failure). -/
inductive ExitKind where
  | normal
  | errorFrame
  | exception
  deriving DecidableEq, Repr

/-- The `async for msg in ws` loop of `websocket_handler`, over the inbound
frames `events`, with the registry contents `reg` in force (within a single
handler the loop never mutates the registry, so it is a fixed parameter).
Returns all completed writes, in order, and how the loop ended.
A TEXT frame triggers the fan-out; if the fan-out raised, the exception
propagates and the loop ends.  An ERROR frame is printed, after which the
closed stream yields no further messages.  Any other frame type matches
neither `if` branch and is skipped. -/
def relayLoop (ws : Client) (reg : List Client) :
    List WSMsg → List Delivery × ExitKind
  | [] => ([], .normal)
  | m :: rest =>
    match m.type with
    | .TEXT =>
      let r := broadcastLoop ws m.data reg
      if r.raised then
        (r.delivered, .exception)
      else
        let k := relayLoop ws reg rest
        (r.delivered ++ k.1, k.2)
    | .ERROR => ([], .errorFrame)
    | .BINARY => relayLoop ws reg rest

/-- Membership in the Python set `active_websockets`, by object identity. -/
def memberById (reg : List Client) (c : Client) : Bool :=
  reg.any (fun x => x.id == c.id)

/-- `active_websockets.add(ws)`: a no-op if the object is already a member,
otherwise it becomes a member. -/
def setAdd (reg : List Client) (c : Client) : List Client :=
  if memberById reg c then reg else reg ++ [c]

/-- `active_websockets.discard(ws)`: removes the object if present; absent
objects are a no-op and no error is raised (`discard` never raises, which is
why the function is total). -/
def setDiscard (reg : List Client) (c : Client) : List Client :=
  reg.filter (fun x => x.id != c.id)

/-- A registry operation performed by a handler, for tracking how often the
handler touches `active_websockets`. -/
inductive RegOp where
  | add (id : Nat)
  | discard (id : Nat)
  deriving DecidableEq, Repr

/-- Everything observable about one `websocket_handler` invocation. -/
structure HandlerResult where
  final : List Client
  loopReg : List Client
  deliveries : List Delivery
  exit : ExitKind
  ops : List RegOp
  deriving DecidableEq, Repr

/-- `websocket_handler`: prepare the websocket, `active_websockets.add(ws)`,
run the relay loop over the inbound frames, and — in the `finally` block, so
on every exit path (normal end of iteration, ERROR message, or an exception
escaping the loop) — `active_websockets.discard(ws)` exactly once.
`reg0` is the registry before this connection is accepted; during the loop
the registry is `setAdd reg0 ws`. -/
def websocket_handler (reg0 : List Client) (ws : Client) (events : List WSMsg) :
    HandlerResult :=
  let reg1 := setAdd reg0 ws
  let r := relayLoop ws reg1 events
  match r.2 with
  | .normal =>
    ⟨setDiscard reg1 ws, reg1, r.1, .normal, [.add ws.id, .discard ws.id]⟩
  | .errorFrame =>
    ⟨setDiscard reg1 ws, reg1, r.1, .errorFrame, [.add ws.id, .discard ws.id]⟩
  | .exception =>
    ⟨setDiscard reg1 ws, reg1, r.1, .exception, [.add ws.id, .discard ws.id]⟩

/-- The payloads delivered to recipient `i`, in delivery order. -/
def deliveredTo (ds : List Delivery) (i : Nat) : List String :=
  (ds.filter (fun d => d.recipient == i)).map Delivery.payload

/-! ### The HTTP application and its routes -/

/-- `EXTERNAL_DASHBOARD_PATH = r"../data/dashboard.html"`. -/
def EXTERNAL_DASHBOARD_PATH : String := "../data/dashboard.html"

/-- The response produced for an HTTP request: the websocket upgrade of
`websocket_handler`, a `web.FileResponse(path)` from
`external_dashboard_handler`, a file served by the static route (directory
root and the path-relative file name), or 404. -/
inductive Response where
  | websocketUpgrade
  | fileResponse (path : String)
  | staticFile (dir : String) (rel : String)
  | notFound
  deriving DecidableEq, Repr

/-- `external_dashboard_handler`: ignores the request and returns
`web.FileResponse(EXTERNAL_DASHBOARD_PATH)`. -/
def external_dashboard_handler : Response :=
  .fileResponse EXTERNAL_DASHBOARD_PATH

/-- A registered route: `router.add_get(path, handler)` with the handler's
response, or `router.add_static(p, path=dir)`. -/
inductive RouteEntry where
  | get (path : String) (resp : Response)
  | staticRoute (root : String) (dir : String)
  deriving DecidableEq, Repr

/-- Whether a route matches a GET request path, and the response it yields:
an exact-path match for `add_get`, a path-starts-with match for `add_static`
(which serves the file named by the remainder of the path from `dir`). -/
def matchRoute (p : String) : RouteEntry → Option Response
  | .get rp resp => if p = rp then some resp else none
  | .staticRoute root dir =>
    if p.data.take root.length = root.data
    then some (.staticFile dir (p.drop root.length))
    else none

/-- aiohttp's dispatcher resolves against registered routes in registration
order; the first match wins. -/
def resolve (routes : List RouteEntry) (p : String) : Response :=
  match routes with
  | [] => .notFound
  | r :: rest =>
    match matchRoute p r with
    | some resp => resp
    | none => resolve rest p

/-- The application's route table, in registration order:
`add_get('/ws', websocket_handler)`,
`add_get('/dashboard.html', external_dashboard_handler)`,
`add_static('/', path=os.getcwd())` with `cwd` the working directory. -/
def appRoutes (cwd : String) : List RouteEntry :=
  [ .get "/ws" .websocketUpgrade,
    .get "/dashboard.html" external_dashboard_handler,
    .staticRoute "/" cwd ]

/-- The body a response serves, given the file-system contents `fs` mapping a
path to the bytes stored there; the static route serves `dir/rel`. -/
def responseBody (fs : String → String) : Response → Option String
  | .websocketUpgrade => none
  | .fileResponse path => some (fs path)
  | .staticFile dir rel => some (fs (dir ++ "/" ++ rel))
  | .notFound => none

/-! ### Helper lemmas -/

lemma eligible_id_ne (ws c : Client) (h : eligible ws c = true) : c.id ≠ ws.id := by
  simp only [eligible, Bool.and_eq_true, bne_iff_ne, ne_eq] at h
  exact h.1

lemma broadcastLoop_raised_eq_false (ws : Client) (p : String) (reg : List Client)
    (h : ∀ c ∈ reg, c.sendFails = false) :
    (broadcastLoop ws p reg).raised = false := by
  induction reg with
  | nil => rfl
  | cons c rest ih =>
    have hc := h c (List.mem_cons_self c rest)
    have ih' := ih fun x hx => h x (List.mem_cons_of_mem c hx)
    by_cases he : eligible ws c = true
    · simp [broadcastLoop, he, hc, ih']
    · simp [broadcastLoop, he, ih']

lemma broadcastLoop_attempted_eq (ws : Client) (p : String) (reg : List Client)
    (h : ∀ c ∈ reg, c.sendFails = false) :
    (broadcastLoop ws p reg).attempted
      = (reg.filter (eligible ws)).map Client.id := by
  induction reg with
  | nil => rfl
  | cons c rest ih =>
    have hc := h c (List.mem_cons_self c rest)
    have ih' := ih fun x hx => h x (List.mem_cons_of_mem c hx)
    by_cases he : eligible ws c = true
    · simp [broadcastLoop, he, hc, List.filter_cons, ih']
    · simp [broadcastLoop, he, List.filter_cons, ih']

lemma broadcastLoop_sender_not_attempted (ws : Client) (p : String)
    (reg : List Client) :
    ws.id ∉ (broadcastLoop ws p reg).attempted := by
  induction reg with
  | nil => simp [broadcastLoop]
  | cons c rest ih =>
    by_cases he : eligible ws c = true
    · have hne : c.id ≠ ws.id := eligible_id_ne ws c he
      by_cases hf : c.sendFails = true
      · simp [broadcastLoop, he, hf]
        exact fun hcontra => hne hcontra.symm
      · simp only [Bool.not_eq_true] at hf
        simp [broadcastLoop, he, hf, List.mem_cons]
        exact ⟨fun hcontra => hne hcontra.symm, ih⟩
    · simpa [broadcastLoop, he] using ih

lemma setDiscard_idem (reg : List Client) (ws : Client) :
    setDiscard (setDiscard reg ws) ws = setDiscard reg ws := by
  simp [setDiscard, List.filter_filter]

lemma memberById_eq_true_iff (reg : List Client) (ws : Client) :
    memberById reg ws = true ↔ ∃ x ∈ reg, x.id = ws.id := by
  simp [memberById]

lemma setDiscard_absent (reg : List Client) (ws : Client)
    (h : memberById reg ws = false) : setDiscard reg ws = reg := by
  apply List.filter_eq_self.mpr
  intro a ha
  simp only [bne_iff_ne, ne_eq]
  intro hEq
  have hmem : memberById reg ws = true :=
    (memberById_eq_true_iff reg ws).mpr ⟨a, ha, hEq⟩
  rw [h] at hmem
  exact Bool.false_ne_true hmem

lemma memberById_setDiscard_self (reg : List Client) (ws : Client) :
    memberById (setDiscard reg ws) ws = false := by
  simp only [memberById, setDiscard, List.any_eq_false, List.mem_filter,
    bne_iff_ne, ne_eq, and_imp]
  intro x _ hx
  simpa using hx

lemma memberById_setAdd_self (reg : List Client) (ws : Client) :
    memberById (setAdd reg ws) ws = true := by
  unfold setAdd
  cases h : memberById reg ws with
  | true => simpa using h
  | false => simp [memberById, List.any_append]

lemma setAdd_absent (reg : List Client) (ws : Client)
    (h : memberById reg ws = false) : setAdd reg ws = reg ++ [ws] := by
  unfold setAdd
  rw [h]
  simp

lemma websocket_handler_def (reg0 : List Client) (ws : Client)
    (events : List WSMsg) :
    websocket_handler reg0 ws events
      = ⟨setDiscard (setAdd reg0 ws) ws, setAdd reg0 ws,
         (relayLoop ws (setAdd reg0 ws) events).1,
         (relayLoop ws (setAdd reg0 ws) events).2,
         [.add ws.id, .discard ws.id]⟩ := by
  cases h : (relayLoop ws (setAdd reg0 ws) events).2 <;>
    simp [websocket_handler, h]

lemma relayLoop_error (ws : Client) (reg : List Client)
    (hok : ∀ c ∈ reg, c.sendFails = false) (pre : List WSMsg) (e : WSMsg)
    (post : List WSMsg) (he : e.type = .ERROR)
    (hpre : ∀ m ∈ pre, m.type ≠ .ERROR) :
    relayLoop ws reg (pre ++ e :: post)
      = ((relayLoop ws reg pre).1, .errorFrame) := by
  induction pre with
  | nil =>
    obtain ⟨t, d⟩ := e
    cases t with
    | TEXT => exact absurd he (by simp)
    | ERROR => simp [relayLoop]
    | BINARY => exact absurd he (by simp)
  | cons m pre ih =>
    have hm : m.type ≠ .ERROR := hpre m (List.mem_cons_self _ _)
    have hpre' : ∀ x ∈ pre, x.type ≠ .ERROR :=
      fun x hx => hpre x (List.mem_cons_of_mem _ hx)
    obtain ⟨t, d⟩ := m
    cases t with
    | TEXT =>
      have hr := broadcastLoop_raised_eq_false ws d reg hok
      simp [relayLoop, hr, ih hpre']
    | ERROR => exact absurd rfl hm
    | BINARY => simpa [relayLoop] using ih hpre'

lemma relayLoop_binary_skip (ws : Client) (reg : List Client)
    (pre : List WSMsg) (d : String) (post : List WSMsg) :
    relayLoop ws reg (pre ++ ⟨.BINARY, d⟩ :: post)
      = relayLoop ws reg (pre ++ post) := by
  induction pre with
  | nil => simp [relayLoop]
  | cons m pre ih =>
    obtain ⟨t, d'⟩ := m
    cases t with
    | TEXT =>
      by_cases hr : (broadcastLoop ws d' reg).raised = true
      · simp [relayLoop, hr]
      · simp only [Bool.not_eq_true] at hr
        simp [relayLoop, hr, ih]
    | ERROR => simp [relayLoop]
    | BINARY => simpa [relayLoop] using ih

lemma broadcastLoop_skip_closed (ws : Client) (p : String) (b : Client)
    (hb : b.closed = true) (pre post : List Client) :
    broadcastLoop ws p (pre ++ b :: post) = broadcastLoop ws p (pre ++ post) := by
  induction pre with
  | nil =>
    have he : eligible ws b = false := by simp [eligible, hb]
    simp [broadcastLoop, he]
  | cons c pre ih =>
    by_cases he : eligible ws c = true
    · by_cases hf : c.sendFails = true
      · simp [broadcastLoop, he, hf]
      · simp only [Bool.not_eq_true] at hf
        simp [broadcastLoop, he, hf, ih]
    · simp [broadcastLoop, he, ih]

lemma broadcastLoop_abort (ws b : Client) (p : String) (pre post : List Client)
    (hpre : ∀ c ∈ pre, c.sendFails = false)
    (hb : eligible ws b = true) (hbf : b.sendFails = true) :
    broadcastLoop ws p (pre ++ b :: post)
      = ⟨(broadcastLoop ws p pre).attempted ++ [b.id],
         (broadcastLoop ws p pre).delivered, true⟩ := by
  induction pre with
  | nil => simp [broadcastLoop, hb, hbf]
  | cons c pre ih =>
    have hc := hpre c (List.mem_cons_self _ _)
    have ih' := ih fun x hx => hpre x (List.mem_cons_of_mem _ hx)
    by_cases he : eligible ws c = true
    · simp [broadcastLoop, he, hc, ih']
    · simp [broadcastLoop, he, ih']

lemma broadcastLoop_delivered_payload (ws : Client) (p : String)
    (reg : List Client) :
    ∀ d ∈ (broadcastLoop ws p reg).delivered, d.payload = p := by
  induction reg with
  | nil => intro d hd; simp [broadcastLoop] at hd
  | cons c rest ih =>
    intro d hd
    by_cases he : eligible ws c = true
    · by_cases hf : c.sendFails = true
      · simp [broadcastLoop, he, hf] at hd
      · simp only [Bool.not_eq_true] at hf
        simp only [broadcastLoop, he, hf, if_true, Bool.false_eq_true,
          if_false, List.mem_cons] at hd
        rcases hd with rfl | hd
        · rfl
        · exact ih d hd
    · simp only [broadcastLoop, he, if_false] at hd
      exact ih d hd

lemma deliveredTo_append (a b : List Delivery) (i : Nat) :
    deliveredTo (a ++ b) i = deliveredTo a i ++ deliveredTo b i := by
  simp [deliveredTo, List.filter_append]

lemma broadcastLoop_deliveredTo_not_mem (ws : Client) (p : String)
    (reg : List Client) (i : Nat) (h : ∀ x ∈ reg, x.id ≠ i) :
    deliveredTo (broadcastLoop ws p reg).delivered i = [] := by
  induction reg with
  | nil => rfl
  | cons c rest ih =>
    have hc := h c (List.mem_cons_self _ _)
    have ih' := ih fun x hx => h x (List.mem_cons_of_mem _ hx)
    by_cases he : eligible ws c = true
    · by_cases hf : c.sendFails = true
      · simp [broadcastLoop, he, hf, deliveredTo]
      · simp only [Bool.not_eq_true] at hf
        simp [broadcastLoop, he, hf, deliveredTo, List.filter_cons, hc] at ih' ⊢
        exact ih'
    · simpa [broadcastLoop, he] using ih'

lemma broadcastLoop_deliveredTo_eq (ws c : Client) (p : String)
    (reg : List Client)
    (hn : (reg.map Client.id).Nodup) (hc : c ∈ reg)
    (he : eligible ws c = true)
    (hf : ∀ x ∈ reg, x.sendFails = false) :
    deliveredTo (broadcastLoop ws p reg).delivered c.id = [p] := by
  induction reg with
  | nil => cases hc
  | cons x rest ih =>
    simp only [List.map_cons, List.nodup_cons] at hn
    obtain ⟨hxnotin, hnrest⟩ := hn
    have hfx := hf x (List.mem_cons_self _ _)
    have hfrest : ∀ y ∈ rest, y.sendFails = false :=
      fun y hy => hf y (List.mem_cons_of_mem _ hy)
    rcases List.mem_cons.mp hc with rfl | hcrest
    · have hrest : ∀ y ∈ rest, y.id ≠ c.id := by
        intro y hy hEq
        exact hxnotin (hEq ▸ List.mem_map_of_mem Client.id hy)
      have hnil := broadcastLoop_deliveredTo_not_mem ws p rest c.id hrest
      simp [broadcastLoop, he, hfx, deliveredTo, List.filter_cons] at hnil ⊢
      exact hnil
    · have hxc : x.id ≠ c.id := by
        intro hEq
        exact hxnotin (hEq ▸ List.mem_map_of_mem Client.id hcrest)
      have ihr := ih hnrest hcrest hfrest
      by_cases hex : eligible ws x = true
      · simp [broadcastLoop, hex, hfx, deliveredTo, List.filter_cons, hxc]
          at ihr ⊢
        exact ihr
      · simpa [broadcastLoop, hex] using ihr

/-! ### Claim theorems -/

/-- Claim C1 counterexample: sender 0 broadcasts to registry `[0, 1, 2]`
where the write to connection 1 raises.  The eligible targets are
connections 1 and 2, but the loop only attempts connection 1 — the uncaught
`send_str` exception aborts the fan-out before connection 2 is reached — so
the set of attempted writes is not exactly the eligible set, refuting the
unconditional claim. -/
theorem C1_counterexample :
    (broadcastLoop ⟨0, false, false⟩ "hello"
        [⟨0, false, false⟩, ⟨1, false, true⟩, ⟨2, false, false⟩]).attempted
      = [1] ∧
    (([⟨0, false, false⟩, ⟨1, false, true⟩, ⟨2, false, false⟩] :
          List Client).filter
        (eligible ⟨0, false, false⟩)).map Client.id
      = [1, 2] ∧
    (broadcastLoop ⟨0, false, false⟩ "hello"
        [⟨0, false, false⟩, ⟨1, false, true⟩, ⟨2, false, false⟩]).attempted
      ≠ (([⟨0, false, false⟩, ⟨1, false, true⟩, ⟨2, false, false⟩] :
            List Client).filter
          (eligible ⟨0, false, false⟩)).map Client.id := by
  refine ⟨rfl, rfl, ?_⟩
  decide

/-- Claim C1 (amended): for every text message received from a connection,
the fan-out executed by the relay loop never targets the sender, and —
whenever no write raises during the fan-out — it calls `send_str` on exactly
those connections currently in the registry other than the sender whose
transport is not closed (a raising write aborts the fan-out, leaving the
remaining eligible recipients unattempted, as settled under C2). -/
theorem C1_broadcast_targets (ws : Client) (p : String) (reg : List Client) :
    ws.id ∉ (broadcastLoop ws p reg).attempted ∧
    ((∀ c ∈ reg, c.sendFails = false) →
      (broadcastLoop ws p reg).attempted
        = (reg.filter (eligible ws)).map Client.id) :=
  ⟨broadcastLoop_sender_not_attempted ws p reg,
   fun h => broadcastLoop_attempted_eq ws p reg h⟩

/-- Claim C1 witness: with sender id 0 and registry consisting of the sender,
a closed connection (id 1) and an open connection (id 2), the fan-out for
`"hi"` targets exactly id 2 and never the sender. -/
theorem C1_broadcast_targets_witness :
    0 ∉ (broadcastLoop ⟨0, false, false⟩ "hi"
        [⟨0, false, false⟩, ⟨1, true, false⟩, ⟨2, false, false⟩]).attempted ∧
    (broadcastLoop ⟨0, false, false⟩ "hi"
        [⟨0, false, false⟩, ⟨1, true, false⟩, ⟨2, false, false⟩]).attempted
      = [2] := by
  have h := C1_broadcast_targets ⟨0, false, false⟩ "hi"
    [⟨0, false, false⟩, ⟨1, true, false⟩, ⟨2, false, false⟩]
  exact ⟨h.1, (h.2 (by decide)).trans (by decide)⟩

/-- Claim C5: `active_websockets.discard` of an absent connection is a safe
no-op, so running the disconnect cleanup twice leaves the registry exactly as
after the first run, with the same size; `discard` is total, so no error is
raised. -/
theorem C5_discard_idempotent (reg : List Client) (ws : Client) :
    setDiscard (setDiscard reg ws) ws = setDiscard reg ws ∧
    (setDiscard (setDiscard reg ws) ws).length = (setDiscard reg ws).length ∧
    (memberById reg ws = false → setDiscard reg ws = reg) :=
  ⟨setDiscard_idem reg ws,
   by rw [setDiscard_idem],
   fun h => setDiscard_absent reg ws h⟩

/-- Claim C5 witness: discarding connection 0 twice from a registry holding
connections 0 and 1 leaves `[1]` both times, with equal sizes, and discarding
it from `[1]` (where it is absent) is a no-op. -/
theorem C5_discard_idempotent_witness :
    setDiscard (setDiscard [⟨0, false, false⟩, ⟨1, false, false⟩] ⟨0, false, false⟩)
        ⟨0, false, false⟩
      = setDiscard [⟨0, false, false⟩, ⟨1, false, false⟩] ⟨0, false, false⟩ ∧
    setDiscard [⟨1, false, false⟩] ⟨0, false, false⟩ = [⟨1, false, false⟩] := by
  have h1 := C5_discard_idempotent [⟨0, false, false⟩, ⟨1, false, false⟩]
    ⟨0, false, false⟩
  have h2 := C5_discard_idempotent [⟨1, false, false⟩] ⟨0, false, false⟩
  exact ⟨h1.1, h2.2.2 (by decide)⟩

/-- Claim C7: a request for `/dashboard.html` resolves to
`external_dashboard_handler`, whose response serves the contents of the fixed
external file `EXTERNAL_DASHBOARD_PATH`; the static route, which would have
matched the same path and served the same-named working-directory file, is
registered later and therefore never reached for this path. -/
theorem C7_dashboard_alias (cwd : String) (fs : String → String) :
    resolve (appRoutes cwd) "/dashboard.html"
      = Response.fileResponse EXTERNAL_DASHBOARD_PATH ∧
    responseBody fs (resolve (appRoutes cwd) "/dashboard.html")
      = some (fs EXTERNAL_DASHBOARD_PATH) ∧
    matchRoute "/dashboard.html" (RouteEntry.staticRoute "/" cwd)
      = some (Response.staticFile cwd "dashboard.html") := by
  have h1 : resolve (appRoutes cwd) "/dashboard.html"
      = Response.fileResponse EXTERNAL_DASHBOARD_PATH := by
    simp [resolve, appRoutes, matchRoute, external_dashboard_handler]
  refine ⟨h1, by rw [h1]; rfl, ?_⟩
  simp only [matchRoute]
  rw [if_pos (by decide)]
  rw [show "/dashboard.html".drop "/".length = "dashboard.html" from by decide]

/-- Claim C2 counterexample: sender 0 broadcasts to registry `[0, 1, 2]`
where the write to connection 1 raises.  Connection 2 — a remaining
recipient — is never attempted, nothing is delivered, and the exception
propagates out of the relay loop: the loop exits instead of staying open,
so the second inbound text is never read or broadcast. -/
theorem C2_counterexample :
    (broadcastLoop ⟨0, false, false⟩ "hello"
        [⟨0, false, false⟩, ⟨1, false, true⟩, ⟨2, false, false⟩]).attempted
      = [1] ∧
    (broadcastLoop ⟨0, false, false⟩ "hello"
        [⟨0, false, false⟩, ⟨1, false, true⟩, ⟨2, false, false⟩]).delivered
      = [] ∧
    (broadcastLoop ⟨0, false, false⟩ "hello"
        [⟨0, false, false⟩, ⟨1, false, true⟩, ⟨2, false, false⟩]).raised
      = true ∧
    relayLoop ⟨0, false, false⟩
        [⟨0, false, false⟩, ⟨1, false, true⟩, ⟨2, false, false⟩]
        [⟨WSMsgType.TEXT, "hello"⟩, ⟨WSMsgType.TEXT, "world"⟩]
      = ([], ExitKind.exception) :=
  ⟨rfl, rfl, rfl, rfl⟩

/-- Claim C2 (amended): a recipient whose transport is already flagged closed
is skipped and the broadcast continues to all remaining recipients; but a
write that actually raises aborts the fan-out — the remaining recipients are
not attempted, nothing further is delivered — and the exception propagates
out of the sender's relay loop, which stops reading (the connection is then
deregistered by the `finally` cleanup). -/
theorem C2_amended_write_failure (ws b : Client) (p : String)
    (pre post : List Client) (events : List WSMsg)
    (hpre : ∀ c ∈ pre, c.sendFails = false)
    (hb : eligible ws b = true) (hbf : b.sendFails = true) :
    (∀ b', b'.closed = true →
      broadcastLoop ws p (pre ++ b' :: post) = broadcastLoop ws p (pre ++ post)) ∧
    (broadcastLoop ws p (pre ++ b :: post)).raised = true ∧
    (broadcastLoop ws p (pre ++ b :: post)).delivered
      = (broadcastLoop ws p pre).delivered ∧
    (broadcastLoop ws p (pre ++ b :: post)).attempted
      = (broadcastLoop ws p pre).attempted ++ [b.id] ∧
    relayLoop ws (pre ++ b :: post) (⟨WSMsgType.TEXT, p⟩ :: events)
      = ((broadcastLoop ws p (pre ++ b :: post)).delivered,
         ExitKind.exception) := by
  have habort := broadcastLoop_abort ws b p pre post hpre hb hbf
  refine ⟨fun b' hb' => broadcastLoop_skip_closed ws p b' hb' pre post,
    ?_, ?_, ?_, ?_⟩
  · rw [habort]
  · rw [habort]
  · rw [habort]
  · have hr : (broadcastLoop ws p (pre ++ b :: post)).raised = true := by
      rw [habort]
    simp [relayLoop, hr]

/-- Claim C2 witness: with sender 0, a raising recipient 1 and a further
recipient 2, the fan-out raises, delivers only what the prefix delivered,
and the relay loop exits with the exception after the failing text. -/
theorem C2_amended_write_failure_witness :
    (broadcastLoop ⟨0, false, false⟩ "hello"
        ([⟨0, false, false⟩] ++ ⟨1, false, true⟩ :: [⟨2, false, false⟩])).raised
      = true ∧
    (broadcastLoop ⟨0, false, false⟩ "hello"
        ([⟨0, false, false⟩] ++ ⟨1, false, true⟩ :: [⟨2, false, false⟩])).delivered
      = (broadcastLoop ⟨0, false, false⟩ "hello" [⟨0, false, false⟩]).delivered ∧
    relayLoop ⟨0, false, false⟩
        ([⟨0, false, false⟩] ++ ⟨1, false, true⟩ :: [⟨2, false, false⟩])
        [⟨WSMsgType.TEXT, "hello"⟩]
      = ((broadcastLoop ⟨0, false, false⟩ "hello"
            ([⟨0, false, false⟩] ++ ⟨1, false, true⟩ :: [⟨2, false, false⟩])).delivered,
         ExitKind.exception) := by
  have h := C2_amended_write_failure ⟨0, false, false⟩ ⟨1, false, true⟩ "hello"
    [⟨0, false, false⟩] [⟨2, false, false⟩] [] (by decide) (by decide) (by decide)
  exact ⟨h.2.1, h.2.2.1, h.2.2.2.2⟩

/-- Claim C3: once an ERROR frame is received, the relay loop terminates:
the outcome of the handler on any continuation of the frame sequence equals
its outcome when the ERROR frame is the last frame, the loop exits in the
error state, and the connection is deregistered. -/
theorem C3_error_frame_terminates (reg0 : List Client) (ws : Client)
    (pre post : List WSMsg) (e : WSMsg)
    (he : e.type = .ERROR) (hpre : ∀ m ∈ pre, m.type ≠ .ERROR)
    (hok : ∀ c ∈ setAdd reg0 ws, c.sendFails = false) :
    websocket_handler reg0 ws (pre ++ e :: post)
      = websocket_handler reg0 ws (pre ++ [e]) ∧
    (websocket_handler reg0 ws (pre ++ e :: post)).exit = .errorFrame ∧
    memberById (websocket_handler reg0 ws (pre ++ e :: post)).final ws
      = false := by
  have h1 := relayLoop_error ws (setAdd reg0 ws) hok pre e post he hpre
  have h2 := relayLoop_error ws (setAdd reg0 ws) hok pre e [] he hpre
  refine ⟨?_, ?_, ?_⟩
  · rw [websocket_handler_def, websocket_handler_def, h1, h2]
  · rw [websocket_handler_def]
    simp [h1]
  · rw [websocket_handler_def]
    exact memberById_setDiscard_self _ _

/-- Claim C3 witness: connection 0, alone with peer 1, sees a text, then an
ERROR frame, then another text; the handler behaves exactly as if the stream
had ended at the ERROR frame, exits in the error state, and is removed. -/
theorem C3_error_frame_terminates_witness :
    websocket_handler [⟨1, false, false⟩] ⟨0, false, false⟩
        ([⟨WSMsgType.TEXT, "a"⟩] ++ ⟨WSMsgType.ERROR, ""⟩ :: [⟨WSMsgType.TEXT, "b"⟩])
      = websocket_handler [⟨1, false, false⟩] ⟨0, false, false⟩
          ([⟨WSMsgType.TEXT, "a"⟩] ++ [⟨WSMsgType.ERROR, ""⟩]) ∧
    (websocket_handler [⟨1, false, false⟩] ⟨0, false, false⟩
        ([⟨WSMsgType.TEXT, "a"⟩] ++ ⟨WSMsgType.ERROR, ""⟩ :: [⟨WSMsgType.TEXT, "b"⟩])).exit
      = .errorFrame ∧
    memberById (websocket_handler [⟨1, false, false⟩] ⟨0, false, false⟩
        ([⟨WSMsgType.TEXT, "a"⟩] ++ ⟨WSMsgType.ERROR, ""⟩ :: [⟨WSMsgType.TEXT, "b"⟩])).final
        ⟨0, false, false⟩
      = false := by
  have h := C3_error_frame_terminates [⟨1, false, false⟩] ⟨0, false, false⟩
    [⟨WSMsgType.TEXT, "a"⟩] [⟨WSMsgType.TEXT, "b"⟩] ⟨WSMsgType.ERROR, ""⟩
    rfl (by decide) (by decide)
  exact ⟨h.1, h.2.1, h.2.2⟩

/-- Claim C4: the connection is a registry member from immediately after
acceptance, remains one for the whole relay loop (the registry the loop reads
always contains it), and on termination — whatever way the loop exits — it is
discarded exactly once; if it was fresh, the cleanup restores the registry to
its pre-acceptance contents. -/
theorem C4_registry_lifecycle (reg0 : List Client) (ws : Client)
    (events : List WSMsg) :
    memberById (websocket_handler reg0 ws events).loopReg ws = true ∧
    ((websocket_handler reg0 ws events).ops).count (RegOp.discard ws.id) = 1 ∧
    memberById (websocket_handler reg0 ws events).final ws = false ∧
    (memberById reg0 ws = false →
      (websocket_handler reg0 ws events).final = reg0) := by
  rw [websocket_handler_def]
  refine ⟨memberById_setAdd_self _ _, ?_, memberById_setDiscard_self _ _, ?_⟩
  · simp [List.count_cons]
  · intro h
    rw [setAdd_absent reg0 ws h]
    have hself := setDiscard_absent reg0 ws h
    simp only [setDiscard] at hself ⊢
    simp [List.filter_append, hself]

/-- Claim C4 witness: a fresh connection 0 joining a registry holding
connection 1, handling one text frame, is registered during the loop, is
discarded exactly once, and leaves the registry as it found it. -/
theorem C4_registry_lifecycle_witness :
    memberById (websocket_handler [⟨1, false, false⟩] ⟨0, false, false⟩
        [⟨WSMsgType.TEXT, "x"⟩]).loopReg ⟨0, false, false⟩ = true ∧
    ((websocket_handler [⟨1, false, false⟩] ⟨0, false, false⟩
        [⟨WSMsgType.TEXT, "x"⟩]).ops).count (RegOp.discard 0) = 1 ∧
    memberById (websocket_handler [⟨1, false, false⟩] ⟨0, false, false⟩
        [⟨WSMsgType.TEXT, "x"⟩]).final ⟨0, false, false⟩ = false ∧
    (websocket_handler [⟨1, false, false⟩] ⟨0, false, false⟩
        [⟨WSMsgType.TEXT, "x"⟩]).final = [⟨1, false, false⟩] := by
  have h := C4_registry_lifecycle [⟨1, false, false⟩] ⟨0, false, false⟩
    [⟨WSMsgType.TEXT, "x"⟩]
  exact ⟨h.1, h.2.1, h.2.2.1, h.2.2.2 (by decide)⟩

/-- Claim C8: every string written to a recipient by the relay loop is
exactly the `data` of some TEXT frame received from the sender — the payload
is handed to `send_str` verbatim, with no transformation, truncation, or
size limit. -/
theorem C8_verbatim_relay (ws : Client) (reg : List Client)
    (events : List WSMsg) :
    ∀ d ∈ (relayLoop ws reg events).1,
      ∃ m ∈ events, m.type = WSMsgType.TEXT ∧ d.payload = m.data := by
  induction events with
  | nil => intro d hd; simp [relayLoop] at hd
  | cons m rest ih =>
    obtain ⟨t, dat⟩ := m
    cases t with
    | TEXT =>
      intro d hd
      by_cases hr : (broadcastLoop ws dat reg).raised = true
      · simp only [relayLoop, hr, if_true] at hd
        exact ⟨⟨.TEXT, dat⟩, List.mem_cons_self _ _, rfl,
          broadcastLoop_delivered_payload ws dat reg d hd⟩
      · simp only [Bool.not_eq_true] at hr
        simp only [relayLoop, hr, Bool.false_eq_true, if_false,
          List.mem_append] at hd
        rcases hd with hd | hd
        · exact ⟨⟨.TEXT, dat⟩, List.mem_cons_self _ _, rfl,
            broadcastLoop_delivered_payload ws dat reg d hd⟩
        · obtain ⟨m', hm', ht, hp⟩ := ih d hd
          exact ⟨m', List.mem_cons_of_mem _ hm', ht, hp⟩
    | ERROR => intro d hd; simp [relayLoop] at hd
    | BINARY =>
      intro d hd
      obtain ⟨m', hm', ht, hp⟩ := ih d (by simpa [relayLoop] using hd)
      exact ⟨m', List.mem_cons_of_mem _ hm', ht, hp⟩

/-- Claim C8 witness: the delivery produced for recipient 1 when sender 0
relays the text `"hi"` carries exactly the received string `"hi"`. -/
theorem C8_verbatim_relay_witness :
    Delivery.mk 1 "hi"
        ∈ (relayLoop ⟨0, false, false⟩
            [⟨0, false, false⟩, ⟨1, false, false⟩]
            [⟨WSMsgType.TEXT, "hi"⟩]).1 ∧
    (Delivery.mk 1 "hi").payload = "hi" := by
  have h := C8_verbatim_relay ⟨0, false, false⟩
    [⟨0, false, false⟩, ⟨1, false, false⟩] [⟨WSMsgType.TEXT, "hi"⟩]
    ⟨1, "hi"⟩ (by decide)
  obtain ⟨m, hm, _, hp⟩ := h
  have hm' : m = ⟨WSMsgType.TEXT, "hi"⟩ := by
    simpa using hm
  subst hm'
  exact ⟨by decide, hp⟩

/-- Claim C9: for a single sender's relay loop, the payloads a fixed open
recipient receives are exactly the sender's TEXT payloads, in arrival order:
each inbound message's fan-out is completed before the next message is read,
so no reordering is possible. -/
theorem C9_sender_order (ws c : Client) (reg : List Client)
    (events : List WSMsg)
    (hn : (reg.map Client.id).Nodup) (hc : c ∈ reg)
    (he : eligible ws c = true)
    (hf : ∀ x ∈ reg, x.sendFails = false)
    (herr : ∀ m ∈ events, m.type ≠ WSMsgType.ERROR) :
    deliveredTo (relayLoop ws reg events).1 c.id
      = (events.filter (fun m => m.type == WSMsgType.TEXT)).map WSMsg.data := by
  induction events with
  | nil => rfl
  | cons m rest ih =>
    have hm := herr m (List.mem_cons_self _ _)
    have herr' : ∀ x ∈ rest, x.type ≠ WSMsgType.ERROR :=
      fun x hx => herr x (List.mem_cons_of_mem _ hx)
    obtain ⟨t, d⟩ := m
    cases t with
    | TEXT =>
      have hr : (broadcastLoop ws d reg).raised = false :=
        broadcastLoop_raised_eq_false ws d reg hf
      have hbc := broadcastLoop_deliveredTo_eq ws c d reg hn hc he hf
      simp [relayLoop, hr, deliveredTo_append, hbc, ih herr',
        List.filter_cons]
    | ERROR => exact absurd rfl hm
    | BINARY => simpa [relayLoop, List.filter_cons] using ih herr'

/-- Claim C9 witness: recipient 1 receives sender 0's texts `"a"` then `"b"`
in that order, the interleaved binary frame contributing nothing. -/
theorem C9_sender_order_witness :
    deliveredTo (relayLoop ⟨0, false, false⟩
        [⟨0, false, false⟩, ⟨1, false, false⟩]
        [⟨WSMsgType.TEXT, "a"⟩, ⟨WSMsgType.BINARY, "z"⟩,
         ⟨WSMsgType.TEXT, "b"⟩]).1 1
      = ["a", "b"] := by
  have h := C9_sender_order ⟨0, false, false⟩ ⟨1, false, false⟩
    [⟨0, false, false⟩, ⟨1, false, false⟩]
    [⟨WSMsgType.TEXT, "a"⟩, ⟨WSMsgType.BINARY, "z"⟩, ⟨WSMsgType.TEXT, "b"⟩]
    (by decide) (by decide) (by decide) (by decide) (by decide)
  exact h.trans (by decide)

/-- Claim C10: a binary (non-text, non-error) frame is silently ignored —
the handler's entire observable outcome (deliveries, final registry, exit
state, registry operations) on a frame sequence containing it equals the
outcome on the same sequence without it, wherever it occurs. -/
theorem C10_binary_ignored (reg0 : List Client) (ws : Client)
    (pre post : List WSMsg) (m : WSMsg) (hm : m.type = WSMsgType.BINARY) :
    websocket_handler reg0 ws (pre ++ m :: post)
      = websocket_handler reg0 ws (pre ++ post) := by
  obtain ⟨t, d⟩ := m
  simp only at hm
  subst hm
  rw [websocket_handler_def, websocket_handler_def, relayLoop_binary_skip]

/-- Claim C10 witness: inserting a binary frame between two texts leaves the
handler's outcome unchanged. -/
theorem C10_binary_ignored_witness :
    websocket_handler [⟨1, false, false⟩] ⟨0, false, false⟩
        ([⟨WSMsgType.TEXT, "a"⟩] ++ ⟨WSMsgType.BINARY, "z"⟩
          :: [⟨WSMsgType.TEXT, "b"⟩])
      = websocket_handler [⟨1, false, false⟩] ⟨0, false, false⟩
          ([⟨WSMsgType.TEXT, "a"⟩] ++ [⟨WSMsgType.TEXT, "b"⟩]) :=
  C10_binary_ignored [⟨1, false, false⟩] ⟨0, false, false⟩
    [⟨WSMsgType.TEXT, "a"⟩] [⟨WSMsgType.TEXT, "b"⟩]
    ⟨WSMsgType.BINARY, "z"⟩ rfl

end Server
